import Mathlib

/-!
Verification development for the strum enumeration code-generation library.

The crate under src/ declares the runtime traits (ParseError, IntoEnumIterator,
EnumMessage, EnumProperty) and documents, in its module comments, the code that
the companion derive macros generate for each enumeration.  The derive-macro
code itself is not under src/, so the generation algorithms (parse, serialize,
iterate, message lookup, property lookup, validation) are modelled here from
the specification, over an explicit metadata model of one enumeration; the
trait-level defaults of EnumProperty are embedded directly from src/lib.rs.
-/

set_option maxHeartbeats 1000000
set_option linter.unusedVariables false

namespace Strum

/-- Modelled from the spec: the shape of one enum variant, one of Unit,
Struct-like(fields) or Tuple-like(fields); only the shape and field count
matter, never field values. -/
inductive VariantShape where
  | unitLike : VariantShape
  | structLike (fields : Nat) : VariantShape
  | tupleLike (fields : Nat) : VariantShape
  deriving DecidableEq, Repr

/-- Modelled from the spec: the VariantDescriptor of the metadata model, one
per variant, holding the authored annotations exactly as parsed.
serializeAttrs collects the repeated serialize values, toStringAttr the
optional to_string value, and props the merged property key/value pairs. -/
structure VariantDescriptor where
  name : String
  shape : VariantShape
  serializeAttrs : List String
  toStringAttr : Option String
  isDisabled : Bool
  isDefault : Bool
  message : Option String
  detailedMessage : Option String
  props : List (String × String)
  deriving DecidableEq, Repr

/-- Modelled from the spec: the EnumDescriptor, an ordered sequence of
variant descriptors in declaration order. -/
structure EnumDescriptor where
  variants : List VariantDescriptor
  deriving DecidableEq, Repr

/-- The ParseError enum of src/lib.rs: the collection of all the possible
reasons an enum can fail to parse from a string. -/
inductive ParseError where
  | VariantNotFound : ParseError
  deriving DecidableEq, Repr

/-- Modelled from the spec: the serialization set of a variant, the strings it
matches on parse; built as the union of all serialize values, seeded with the
variant name when no serialize and no to_string annotation was given. -/
def serializations (v : VariantDescriptor) : List String :=
  if v.serializeAttrs.isEmpty && v.toStringAttr.isNone then [v.name] else v.serializeAttrs

/-- Modelled from the spec: the longest string of a list, earlier entries
preferred on equal length; none exactly on the empty list. -/
def longest : List String → Option String
  | [] => none
  | s :: rest =>
    match longest rest with
    | none => some s
    | some t => if s.length < t.length then some t else some s

/-- Modelled from the spec: the canonical string emitted on serialize.
Resolution order, first match wins: the explicit to_string annotation value;
otherwise the longest string among the serializations; otherwise the name. -/
def canonicalString (v : VariantDescriptor) : String :=
  match v.toStringAttr with
  | some s => s
  | none =>
    match longest (serializations v) with
    | some s => s
    | none => v.name

/-- Modelled from the spec: a representative instance of a variant at the
generated-artifact runtime boundary: the variant tag plus, for the default
variant only, the captured input string; captured = none means every payload
field holds the neutral default value of its type. -/
structure VariantInstance where
  tag : String
  captured : Option String
  deriving DecidableEq, Repr

/-- Modelled from the spec: whether a parse input matches a variant: the
variant is not disabled and the input occurs, exactly and case-sensitively,
in its serialization set. -/
def matchesInput (s : String) (v : VariantDescriptor) : Bool :=
  !v.isDisabled && (serializations v).contains s

/-- Modelled from the spec: the generated parse function. Linear scan over the
variants for a non-disabled one whose serialization set holds the input; the
first match wins and its fields are neutral. If no match and a default variant
exists, that variant captures the input string; otherwise VariantNotFound. -/
def from_str (e : EnumDescriptor) (s : String) : Except ParseError VariantInstance :=
  match e.variants.find? (matchesInput s) with
  | some v => Except.ok ⟨v.name, none⟩
  | none =>
    match e.variants.find? (fun v => v.isDefault) with
    | some d => Except.ok ⟨d.name, some s⟩
    | none => Except.error ParseError.VariantNotFound

/-- Modelled from the spec: the first longest string of a list computed by a
left fold, with a fallback for the empty list; this is the zero-copy borrow
form of the serialize resolution used by the AsRefStr derive. -/
def pickLongest (dflt : String) : List String → String
  | [] => dflt
  | s :: rest => rest.foldl (fun acc t => if acc.length < t.length then t else acc) s

/-- Modelled from the spec: the borrowed serialization accessor of the
AsRefStr derive, stated by the spec to follow the same rules as the owned
to_string form. -/
def as_ref_str (v : VariantDescriptor) : String :=
  match v.toStringAttr with
  | some s => s
  | none => pickLongest v.name (serializations v)

/-- Modelled from the spec: the generated get_message lookup, returning the
authored message of the variant, dispatching on the tag only. -/
def get_message (v : VariantDescriptor) : Option String :=
  v.message

/-- Modelled from the spec: the generated get_detailed_message lookup,
falling back to the message value when no detailed_message was authored. -/
def get_detailed_message (v : VariantDescriptor) : Option String :=
  match v.detailedMessage with
  | some d => some d
  | none => v.message

/-- Modelled from the spec: the generated get_str property lookup, a two-level
dispatch: first on the variant, then on the key within the property mapping of
that variant; an unknown key yields none. -/
def get_str (v : VariantDescriptor) (key : String) : Option String :=
  (v.props.find? (fun p => p.1 == key)).map (fun p => p.2)

/-- Modelled from the spec: parsing a stored property string as a boolean,
used by the typed accessor get_bool. -/
def parseBool (s : String) : Option Bool :=
  if s == "true" then some true else if s == "false" then some false else none

/-- Modelled from the spec: the value of a decimal digit character, none on a
non-digit. -/
def digitVal (c : Char) : Option Nat :=
  if c = '0' then some 0 else if c = '1' then some 1 else if c = '2' then some 2
  else if c = '3' then some 3 else if c = '4' then some 4 else if c = '5' then some 5
  else if c = '6' then some 6 else if c = '7' then some 7 else if c = '8' then some 8
  else if c = '9' then some 9 else none

/-- Modelled from the spec: accumulator loop of the decimal parser over the
characters of the stored property string. -/
def parseNatAux (acc : Nat) : List Char → Option Nat
  | [] => some acc
  | c :: rest =>
    match digitVal c with
    | some d => parseNatAux (acc * 10 + d) rest
    | none => none

/-- Modelled from the spec: parsing a stored property string as an unsigned
integer, used by the typed accessor get_int; none on the empty string or on
any non-digit character. -/
def parseNatStr (s : String) : Option Nat :=
  if s.data.isEmpty then none else parseNatAux 0 s.data

/-- Modelled from the spec: the typed accessor get_int, parsing the stored
string on demand; none on absence and on parse failure alike. -/
def get_int (v : VariantDescriptor) (key : String) : Option Nat :=
  (get_str v key).bind parseNatStr

/-- Modelled from the spec: the typed accessor get_bool, parsing the stored
string on demand; none on absence and on parse failure alike. -/
def get_bool (v : VariantDescriptor) (key : String) : Option Bool :=
  (get_str v key).bind parseBool

/-- The trait-level default body of EnumProperty.get_int in src/lib.rs: it
ignores the receiver and the key and returns Option.None. -/
def defaultGetInt (v : VariantDescriptor) (key : String) : Option Nat :=
  Option.none

/-- The trait-level default body of EnumProperty.get_bool in src/lib.rs: it
ignores the receiver and the key and returns Option.None. -/
def defaultGetBool (v : VariantDescriptor) (key : String) : Option Bool :=
  Option.none

/-- Modelled from the spec: two variants have disjoint parse matching unless
one is disabled: either one of them is disabled, or no serialization of the
first occurs in the serialization set of the second. -/
def serDisjoint (a b : VariantDescriptor) : Bool :=
  a.isDisabled || b.isDisabled || (serializations a).all (fun s => !((serializations b).contains s))

/-- Modelled from the spec: the cross-variant validation check that no two
non-disabled variants share a serializations entry. -/
def uniqueSerializations : List VariantDescriptor → Bool
  | [] => true
  | v :: rest => rest.all (serDisjoint v) && uniqueSerializations rest

/-- Modelled from the spec: the static validation failure raised when two
non-disabled variants share a serialization string. -/
inductive GenError where
  | DuplicateSerialization : GenError
  deriving DecidableEq, Repr

/-- Modelled from the spec: the abstract generated-artifact description for
one enumeration: the parse match arms, the optional default arm, the
serialize arms and the iteration order. -/
structure GeneratedArtifacts where
  parseArms : List (String × String)
  defaultArm : Option String
  serializeArms : List (String × String)
  iterOrder : List String
  deriving DecidableEq, Repr

/-- Modelled from the spec: generation for one enumeration. Validation
failures abort generation for the whole enumeration with no partial
artifacts; on success every artifact is produced from the metadata model. -/
def generate (e : EnumDescriptor) : Except GenError GeneratedArtifacts :=
  if uniqueSerializations e.variants then
    Except.ok
      { parseArms :=
          (e.variants.filter (fun v => !v.isDisabled)).foldr
            (fun v acc => ((serializations v).map (fun s => (s, v.name))) ++ acc) []
        defaultArm := (e.variants.find? (fun v => v.isDefault)).map (fun v => v.name)
        serializeArms := e.variants.map (fun v => (v.name, canonicalString v))
        iterOrder := e.variants.map (fun v => v.name) }
  else
    Except.error GenError.DuplicateSerialization

/-- Modelled from the spec: the generated iterator, one full pass: one
representative instance of every variant, in declaration order, every payload
field neutral. -/
def iterVariants (e : EnumDescriptor) : List VariantInstance :=
  e.variants.map (fun v => { tag := v.name, captured := none })

/-- A variant with no authored annotations, the base of the concrete examples
below: the serialization set defaults to the name, nothing else is set. -/
def plainVariant (n : String) (sh : VariantShape) : VariantDescriptor :=
  { name := n, shape := sh, serializeAttrs := [], toStringAttr := none,
    isDisabled := false, isDefault := false, message := none,
    detailedMessage := none, props := [] }

/-- The Red variant of the Color example of the documentation. -/
def colorRed : VariantDescriptor := plainVariant "Red" VariantShape.unitLike

/-- The Green variant of the Color example: struct-like with one field. -/
def colorGreen : VariantDescriptor := plainVariant "Green" (VariantShape.structLike 1)

/-- The Blue variant of the Color example: tuple-like, serialize blue and b. -/
def colorBlue : VariantDescriptor :=
  { plainVariant "Blue" (VariantShape.tupleLike 1) with serializeAttrs := ["blue", "b"] }

/-- The Yellow variant of the Color example: disabled. -/
def colorYellow : VariantDescriptor :=
  { plainVariant "Yellow" VariantShape.unitLike with isDisabled := true }

/-- The Color enumeration of the documentation example. -/
def colorEnum : EnumDescriptor := ⟨[colorRed, colorGreen, colorBlue, colorYellow]⟩

/-- The Function variant of the Tokens example, serialize fn. -/
def tokensFunction : VariantDescriptor :=
  { plainVariant "Function" VariantShape.unitLike with serializeAttrs := ["fn"] }

/-- The OpenParen variant of the Tokens example. -/
def tokensOpenParen : VariantDescriptor :=
  { plainVariant "OpenParen" VariantShape.unitLike with serializeAttrs := ["("] }

/-- The CloseParen variant of the Tokens example. -/
def tokensCloseParen : VariantDescriptor :=
  { plainVariant "CloseParen" VariantShape.unitLike with serializeAttrs := [")"] }

/-- The Ident variant of the Tokens example: the default variant, a
single-field tuple. -/
def tokensIdent : VariantDescriptor :=
  { plainVariant "Ident" (VariantShape.tupleLike 1) with isDefault := true }

/-- The Tokens enumeration of the documentation example. -/
def tokensEnum : EnumDescriptor :=
  ⟨[tokensFunction, tokensOpenParen, tokensCloseParen, tokensIdent]⟩

/-- A variant carrying both a to_string annotation and serialize values. -/
def attrToString : VariantDescriptor :=
  { plainVariant "V" VariantShape.unitLike with
      serializeAttrs := ["a", "bb"], toStringAttr := some "X" }

/-- A variant carrying serialize values of different lengths and no
to_string annotation. -/
def attrSerialize : VariantDescriptor :=
  { plainVariant "W" VariantShape.unitLike with serializeAttrs := ["a", "bb"] }

/-- The Dog variant of the Pet example: message and detailed message. -/
def petDog : VariantDescriptor :=
  { plainVariant "Dog" VariantShape.unitLike with
      message := some "I have a dog", detailedMessage := some "My dog is called Spots" }

/-- The Cat variant of the Pet example: message only. -/
def petCat : VariantDescriptor :=
  { plainVariant "Cat" VariantShape.unitLike with message := some "I do not have a cat" }

/-- The History variant of the Class example: two string properties. -/
def classHistory : VariantDescriptor :=
  { plainVariant "History" VariantShape.unitLike with
      props := [("Teacher", "Ms.Frizzle"), ("Room", "201")] }

/-- The White variant of the Color property example: three numeric string
properties. -/
def colorWhite : VariantDescriptor :=
  { plainVariant "White" VariantShape.unitLike with
      props := [("Red", "255"), ("Blue", "255"), ("Green", "255")] }

/-- First of two variants declaring the same serialize value x. -/
def dupFirst : VariantDescriptor :=
  { plainVariant "A1" VariantShape.unitLike with serializeAttrs := ["x"] }

/-- Second of two variants declaring the same serialize value x. -/
def dupSecond : VariantDescriptor :=
  { plainVariant "A2" VariantShape.unitLike with serializeAttrs := ["x"] }

/-- An enumeration in which two non-disabled variants share a serialization. -/
def dupEnum : EnumDescriptor := ⟨[dupFirst, dupSecond]⟩

/-- Helper: find? returns the given element when it is a member satisfying the
predicate and every satisfying member is equal to it. -/
theorem find_of_mem_of_unique {α : Type} (p : α → Bool) (l : List α) (v : α)
    (hv : v ∈ l) (hp : p v = true) (huniq : ∀ w ∈ l, p w = true → w = v) :
    l.find? p = some v := by
  induction l with
  | nil => cases hv
  | cons a rest ih =>
    by_cases ha : p a = true
    · have hav : a = v := huniq a (List.mem_cons_self a rest) ha
      rw [List.find?_cons_of_pos rest ha, hav]
    · have hne : v ≠ a := fun h => ha (h ▸ hp)
      have hvrest : v ∈ rest := by
        rcases List.mem_cons.mp hv with h | h
        · exact absurd h hne
        · exact h
      rw [List.find?_cons_of_neg rest ha]
      exact ih hvrest (fun w hw hpw => huniq w (List.mem_cons_of_mem a hw) hpw)

/-- Helper: two variants on which serDisjoint holds cannot both match the same
input. -/
theorem serDisjoint_no_common_match (s : String) (a b : VariantDescriptor)
    (hd : serDisjoint a b = true)
    (hma : matchesInput s a = true) (hmb : matchesInput s b = true) : False := by
  unfold matchesInput at hma hmb
  unfold serDisjoint at hd
  simp only [Bool.and_eq_true, Bool.not_eq_true'] at hma hmb
  simp only [Bool.or_eq_true, List.all_eq_true, Bool.not_eq_true'] at hd
  rcases hd with (h | h) | h
  · rw [hma.1] at h; cases h
  · rw [hmb.1] at h; cases h
  · have hsa : s ∈ serializations a := by simpa using hma.2
    have := h s hsa
    rw [hmb.2] at this
    cases this

/-- Helper: under the cross-variant uniqueness validation, at most one variant
of the list matches a given input. -/
theorem uniqueSer_at_most_one (s : String) (l : List VariantDescriptor)
    (hu : uniqueSerializations l = true) (v w : VariantDescriptor)
    (hv : v ∈ l) (hw : w ∈ l)
    (hmv : matchesInput s v = true) (hmw : matchesInput s w = true) : w = v := by
  induction l with
  | nil => cases hv
  | cons a rest ih =>
    unfold uniqueSerializations at hu
    simp only [Bool.and_eq_true, List.all_eq_true] at hu
    rcases List.mem_cons.mp hv with hva | hva <;> rcases List.mem_cons.mp hw with hwa | hwa
    · rw [hva, hwa]
    · exact absurd (serDisjoint_no_common_match s a w (hva ▸ hu.1 w hwa) (hva ▸ hmv) hmw) id
    · exact absurd (serDisjoint_no_common_match s a v (hwa ▸ hu.1 v hva) (hwa ▸ hmw) hmv) id
    · exact ih hu.2 hva hwa

/-- Helper: under the uniqueness validation, parse finds exactly the matching
variant and returns it with neutral fields. -/
theorem from_str_match (e : EnumDescriptor) (s : String) (v : VariantDescriptor)
    (hu : uniqueSerializations e.variants = true)
    (hv : v ∈ e.variants) (hm : matchesInput s v = true) :
    from_str e s = Except.ok ⟨v.name, none⟩ := by
  unfold from_str
  rw [find_of_mem_of_unique (matchesInput s) e.variants v hv hm
    (fun w hw hpw => uniqueSer_at_most_one s e.variants hu v w hv hw hm hpw)]

/-- Helper: when no non-disabled variant has the input in its serialization
set, the scan finds nothing. -/
theorem find_matches_none (l : List VariantDescriptor) (s : String)
    (h : ∀ v ∈ l, v.isDisabled = false → (serializations v).contains s = false) :
    l.find? (matchesInput s) = none := by
  rw [List.find?_eq_none]
  intro v hv
  unfold matchesInput
  simp only [Bool.and_eq_true, Bool.not_eq_true', not_and]
  intro hdis
  rw [h v hv hdis]
  simp

/-- Helper: unfolding equation of longest on a non-empty list. -/
theorem longest_cons (s : String) (rest : List String) :
    longest (s :: rest) =
      (match longest rest with
       | none => some s
       | some t => if s.length < t.length then some t else some s) := rfl

/-- Helper: longest never returns none on a non-empty list. -/
theorem longest_cons_ne_none (s : String) (rest : List String) :
    longest (s :: rest) ≠ none := by
  rw [longest_cons]
  cases hrest : longest rest with
  | none => simp
  | some t =>
    show (if s.length < t.length then some t else some s) ≠ none
    split_ifs <;> simp

/-- Helper: the longest of a list is a member of the list of maximal length,
with earlier entries preferred on equal length. -/
theorem longest_spec (l : List String) (t : String) (h : longest l = some t) :
    t ∈ l ∧ ∀ u ∈ l, u.length ≤ t.length := by
  induction l generalizing t with
  | nil => cases h
  | cons s rest ih =>
    rw [longest_cons] at h
    cases hrest : longest rest with
    | none =>
      rw [hrest] at h
      have h2 : some s = some t := h
      have hts : t = s := by cases h2; rfl
      have hnil : rest = [] := by
        cases rest with
        | nil => rfl
        | cons a r => exact absurd hrest (longest_cons_ne_none a r)
      subst hts
      subst hnil
      constructor
      · exact List.mem_cons_self _ _
      · intro u hu
        rcases List.mem_cons.mp hu with h | h
        · rw [h]
        · cases h
    | some w =>
      rw [hrest] at h
      have h2 : (if s.length < w.length then some w else some s) = some t := h
      have hw := ih w hrest
      by_cases hlen : s.length < w.length
      · rw [if_pos hlen] at h2
        have htw : t = w := by cases h2; rfl
        subst htw
        constructor
        · exact List.mem_cons_of_mem s hw.1
        · intro u hu
          rcases List.mem_cons.mp hu with h | h
          · rw [h]; omega
          · exact hw.2 u h
      · rw [if_neg hlen] at h2
        have hts : t = s := by cases h2; rfl
        subst hts
        constructor
        · exact List.mem_cons_self _ _
        · intro u hu
          rcases List.mem_cons.mp hu with h | h
          · rw [h]
          · have := hw.2 u h
            omega

/-- Helper: the left fold of the AsRefStr form computes exactly the value of
longest applied from the given accumulator. -/
theorem foldl_longest (l : List String) (acc : String) :
    l.foldl (fun acc t => if acc.length < t.length then t else acc) acc =
      (match longest l with
       | none => acc
       | some t => if acc.length < t.length then t else acc) := by
  induction l generalizing acc with
  | nil => rfl
  | cons s rest ih =>
    rw [List.foldl_cons, ih, longest_cons]
    cases hrest : longest rest with
    | none => rfl
    | some t =>
      show (if (if acc.length < s.length then s else acc).length < t.length then t
            else if acc.length < s.length then s else acc) =
           (match (if s.length < t.length then some t else some s) with
            | none => acc
            | some u => if acc.length < u.length then u else acc)
      by_cases hST : s.length < t.length
      · rw [if_pos hST]
        show (if (if acc.length < s.length then s else acc).length < t.length then t
              else if acc.length < s.length then s else acc) =
             (if acc.length < t.length then t else acc)
        by_cases hAS : acc.length < s.length
        · rw [if_pos hAS]
          have hAT : acc.length < t.length := by omega
          rw [if_pos hST, if_pos hAT]
        · rw [if_neg hAS]
      · rw [if_neg hST]
        show (if (if acc.length < s.length then s else acc).length < t.length then t
              else if acc.length < s.length then s else acc) =
             (if acc.length < s.length then s else acc)
        by_cases hAS : acc.length < s.length
        · rw [if_pos hAS, if_neg hST]
        · rw [if_neg hAS]
          have hAT : ¬ acc.length < t.length := by omega
          rw [if_neg hAT]

/-- Helper: in a property list with pairwise distinct keys, find? on a key
locates exactly the stored pair. -/
theorem find_key_unique (props : List (String × String)) (key val : String)
    (hnodup : (props.map Prod.fst).Nodup) (hmem : (key, val) ∈ props) :
    props.find? (fun p => p.1 == key) = some (key, val) := by
  apply find_of_mem_of_unique _ _ _ hmem (by simp)
  intro w hw hpw
  have hw1 : w.1 = key := by simpa using hpw
  exact List.inj_on_of_nodup_map hnodup hw hmem (by rw [hw1])

/-- Helper: a serialization shared between two non-disabled variants at two
positions of the list falsifies the uniqueness validation. -/
theorem uniqueSer_false_of_shared (s : String) (l1 l2 l3 : List VariantDescriptor)
    (v1 v2 : VariantDescriptor)
    (h1 : v1.isDisabled = false) (h2 : v2.isDisabled = false)
    (hs1 : (serializations v1).contains s = true)
    (hs2 : (serializations v2).contains s = true) :
    uniqueSerializations (l1 ++ v1 :: l2 ++ v2 :: l3) = false := by
  induction l1 with
  | nil =>
    have hdis : serDisjoint v1 v2 = false := by
      apply Bool.eq_false_iff.mpr
      intro htrue
      exact serDisjoint_no_common_match s v1 v2 htrue
        (by unfold matchesInput; rw [h1, hs1]; rfl)
        (by unfold matchesInput; rw [h2, hs2]; rfl)
    have hall : (l2 ++ v2 :: l3).all (serDisjoint v1) = false := by
      apply Bool.eq_false_iff.mpr
      intro htrue
      have hv2 := (List.all_eq_true.mp htrue) v2 (by simp)
      rw [hdis] at hv2
      cases hv2
    show ((l2 ++ v2 :: l3).all (serDisjoint v1) &&
      uniqueSerializations (l2 ++ v2 :: l3)) = false
    rw [hall]
    rfl
  | cons a l1t ih =>
    show ((l1t ++ v1 :: l2 ++ v2 :: l3).all (serDisjoint a) &&
      uniqueSerializations (l1t ++ v1 :: l2 ++ v2 :: l3)) = false
    rw [ih]
    exact Bool.and_false _

/-- Claim C1: the generated parser scans only the non-disabled variants and
matches the input exactly and case-sensitively against their serialization
sets: under the validated serialization-uniqueness invariant, when a
non-disabled variant has the input in its serialization set the parser
returns Ok of that variant, and when no non-disabled variant has it and no
default variant exists it returns Err VariantNotFound; in particular a
disabled variant never matches, even when the input equals its name. -/
theorem parse_scans_nondisabled (e : EnumDescriptor) (s : String)
    (hu : uniqueSerializations e.variants = true) :
    (∀ v ∈ e.variants, v.isDisabled = false → (serializations v).contains s = true →
      from_str e s = Except.ok ⟨v.name, none⟩) ∧
    ((∀ v ∈ e.variants, v.isDisabled = false → (serializations v).contains s = false) →
      (∀ v ∈ e.variants, v.isDefault = false) →
      from_str e s = Except.error ParseError.VariantNotFound) := by
  constructor
  · intro v hv hdis hcont
    apply from_str_match e s v hu hv
    unfold matchesInput
    rw [hdis, hcont]
    rfl
  · intro hnone hnodef
    unfold from_str
    rw [find_matches_none e.variants s hnone,
      List.find?_eq_none.mpr (fun v hv => by rw [hnodef v hv]; simp)]

/-- Witness for C1 on the Color example of the documentation: the input b
finds the non-disabled Blue variant, and the input Yellow, the name of the
disabled variant, finds nothing and yields VariantNotFound. -/
theorem parse_scans_nondisabled_witness :
    from_str colorEnum "b" = Except.ok ⟨"Blue", none⟩ ∧
    from_str colorEnum "Yellow" = Except.error ParseError.VariantNotFound := by
  constructor
  · exact (parse_scans_nondisabled colorEnum "b" (by decide)).1 colorBlue
      (by decide) (by decide) (by decide)
  · exact (parse_scans_nondisabled colorEnum "Yellow" (by decide)).2
      (by decide) (by decide)

/-- Claim C2: the canonical string of a variant is resolved
deterministically: an explicit to_string annotation value when present,
otherwise a longest string among the serialize values, otherwise the name of
the variant. -/
theorem canonical_resolution (v : VariantDescriptor) :
    (∀ x, v.toStringAttr = some x → canonicalString v = x) ∧
    (v.toStringAttr = none → v.serializeAttrs ≠ [] →
      canonicalString v ∈ v.serializeAttrs ∧
      ∀ t ∈ v.serializeAttrs, t.length ≤ (canonicalString v).length) ∧
    (v.toStringAttr = none → v.serializeAttrs = [] → canonicalString v = v.name) := by
  refine ⟨?_, ?_, ?_⟩
  · intro x hx
    unfold canonicalString
    rw [hx]
  · intro hts hne
    have hie : v.serializeAttrs.isEmpty = false := by
      cases hl : v.serializeAttrs with
      | nil => exact absurd hl hne
      | cons a r => rfl
    have hser : serializations v = v.serializeAttrs := by
      simp [serializations, hie]
    have hne2 : serializations v ≠ [] := by rw [hser]; exact hne
    cases hl : longest (serializations v) with
    | none =>
      cases hsl : serializations v with
      | nil => exact absurd hsl hne2
      | cons a r => rw [hsl] at hl; exact absurd hl (longest_cons_ne_none a r)
    | some u =>
      have hcs : canonicalString v = u := by
        unfold canonicalString
        rw [hts, hl]
      have hspec := longest_spec _ u hl
      rw [hser] at hspec
      rw [hcs]
      exact hspec
  · intro hts hemp
    have hser : serializations v = [v.name] := by
      simp [serializations, hemp, hts]
    unfold canonicalString
    rw [hts, hser]
    rfl

/-- Witness for C2 on three concrete variants: with to_string X and serialize
a, bb the canonical string is X; with only serialize a, bb it is a longest
entry, hence bb; with no annotations it is the name. -/
theorem canonical_resolution_witness :
    canonicalString attrToString = "X" ∧
    (canonicalString attrSerialize ∈ ["a", "bb"] ∧
      ∀ t ∈ ["a", "bb"], t.length ≤ (canonicalString attrSerialize).length) ∧
    canonicalString colorRed = "Red" := by
  refine ⟨(canonical_resolution attrToString).1 "X" rfl, ?_, ?_⟩
  · exact (canonical_resolution attrSerialize).2.1 rfl (by decide)
  · exact (canonical_resolution colorRed).2.2 rfl rfl

/-- Claim C3: when the enumeration has a default variant with a single tuple
field and the input matches no non-disabled variant, parse succeeds with the
default variant and the captured payload equal to the input string. -/
theorem parse_default_capture (e : EnumDescriptor) (s : String)
    (D : VariantDescriptor) (hD : D ∈ e.variants) (hdef : D.isDefault = true)
    (hshape : D.shape = VariantShape.tupleLike 1)
    (huniq : ∀ w ∈ e.variants, w.isDefault = true → w = D)
    (hnomatch : ∀ v ∈ e.variants, v.isDisabled = false →
      (serializations v).contains s = false) :
    from_str e s = Except.ok ⟨D.name, some s⟩ := by
  unfold from_str
  rw [find_matches_none e.variants s hnomatch,
    find_of_mem_of_unique (fun v => v.isDefault) e.variants D hD hdef huniq]

/-- Witness for C3 on the Tokens example of the documentation: hello_world
matches no serialization and is captured by the default Ident variant. -/
theorem parse_default_capture_witness :
    from_str tokensEnum "hello_world" = Except.ok ⟨"Ident", some "hello_world"⟩ :=
  parse_default_capture tokensEnum "hello_world" tokensIdent
    (by decide) (by decide) (by decide) (by decide) (by decide)

/-- Claim C4: round trip for a variant with no authored annotations: under
the validated serialization-uniqueness invariant, parsing the serialized
canonical string returns that same variant, with payload fields neutral. -/
theorem round_trip_unannotated (e : EnumDescriptor) (v : VariantDescriptor)
    (hu : uniqueSerializations e.variants = true) (hv : v ∈ e.variants)
    (hser : v.serializeAttrs = []) (hts : v.toStringAttr = none)
    (hdis : v.isDisabled = false) (hdef : v.isDefault = false)
    (hmsg : v.message = none) (hdmsg : v.detailedMessage = none)
    (hprops : v.props = []) :
    from_str e (canonicalString v) = Except.ok ⟨v.name, none⟩ := by
  have hserl : serializations v = [v.name] := by
    simp [serializations, hser, hts]
  have hcs : canonicalString v = v.name := by
    unfold canonicalString
    rw [hts, hserl]
    rfl
  rw [hcs]
  apply from_str_match e v.name v hu hv
  unfold matchesInput
  rw [hdis, hserl]
  simp

/-- Witness for C4 on the Color example of the documentation: the
annotation-free Red variant serializes to Red and parses back to itself. -/
theorem round_trip_unannotated_witness :
    from_str colorEnum (canonicalString colorRed) = Except.ok ⟨"Red", none⟩ :=
  round_trip_unannotated colorEnum colorRed (by decide) (by decide)
    rfl rfl rfl rfl rfl rfl rfl

/-- Claim C5: property lookup: get_str returns the stored string when the
variant declares the key (keys being unique per variant), and none for an
unknown key or a variant without that key; the typed accessors get_int and
get_bool parse the stored string on demand and return none both on absence
and on parse failure, the two cases indistinguishable: the result is the
same value none. -/
theorem property_lookup (v : VariantDescriptor) (key : String) :
    ((∀ p ∈ v.props, p.1 ≠ key) →
      get_str v key = none ∧ get_int v key = none ∧ get_bool v key = none) ∧
    ((v.props.map Prod.fst).Nodup →
      ∀ val, (key, val) ∈ v.props → get_str v key = some val) ∧
    (∀ sv, get_str v key = some sv → parseNatStr sv = none → get_int v key = none) ∧
    (∀ sv, get_str v key = some sv → parseBool sv = none → get_bool v key = none) := by
  refine ⟨?_, ?_, ?_, ?_⟩
  · intro habs
    have hf : v.props.find? (fun p => p.1 == key) = none := by
      rw [List.find?_eq_none]
      intro p hp
      simpa using habs p hp
    unfold get_int get_bool get_str
    rw [hf]
    exact ⟨rfl, rfl, rfl⟩
  · intro hnodup val hmem
    unfold get_str
    rw [find_key_unique v.props key val hnodup hmem]
    rfl
  · intro sv hs hparse
    unfold get_int
    rw [hs]
    exact hparse
  · intro sv hs hparse
    unfold get_bool
    rw [hs]
    exact hparse

/-- Witness for C5 on the concrete property examples: a declared key returns
its stored string, an undeclared key returns none through all three
accessors, and a stored string that fails integer parsing makes get_int
return none while get_str still returns the string. -/
theorem property_lookup_witness :
    get_str colorWhite "Red" = some "255" ∧
    (get_str classHistory "Time" = none ∧ get_int classHistory "Time" = none ∧
      get_bool classHistory "Time" = none) ∧
    get_int classHistory "Teacher" = none := by
  refine ⟨?_, ?_, ?_⟩
  · exact (property_lookup colorWhite "Red").2.1 (by decide) "255" (by decide)
  · exact (property_lookup classHistory "Time").1 (by decide)
  · exact (property_lookup classHistory "Teacher").2.2.1 "Ms.Frizzle"
      (by decide) (by decide)

/-- Claim C6: duplicate-serialization rejection: when two non-disabled
variants of one enumeration share a serialization string, generation for
that enumeration fails with DuplicateSerialization, and no artifacts,
partial or otherwise, are produced: the result is the bare error. -/
theorem duplicate_serialization_rejected (e : EnumDescriptor) (s : String)
    (l1 l2 l3 : List VariantDescriptor) (v1 v2 : VariantDescriptor)
    (hsplit : e.variants = l1 ++ v1 :: l2 ++ v2 :: l3)
    (h1 : v1.isDisabled = false) (h2 : v2.isDisabled = false)
    (hs1 : (serializations v1).contains s = true)
    (hs2 : (serializations v2).contains s = true) :
    generate e = Except.error GenError.DuplicateSerialization := by
  have hu : uniqueSerializations e.variants = false := by
    rw [hsplit]
    exact uniqueSer_false_of_shared s l1 l2 l3 v1 v2 h1 h2 hs1 hs2
  unfold generate
  rw [hu]
  rfl

/-- Witness for C6 on the two-variant enumeration in which both variants
declare serialize x: generation fails with DuplicateSerialization. -/
theorem duplicate_serialization_rejected_witness :
    generate dupEnum = Except.error GenError.DuplicateSerialization :=
  duplicate_serialization_rejected dupEnum "x" [] [] [] dupFirst dupSecond
    rfl rfl rfl (by decide) (by decide)

/-- Claim C7: one full pass of the generated iterator yields exactly as many
items as the enumeration has variants, in declaration order, with pairwise
distinct tags when the variant names are distinct, and with every payload
field neutral. -/
theorem iteration_declaration_order (e : EnumDescriptor)
    (hnames : (e.variants.map (fun v => v.name)).Nodup) :
    (iterVariants e).length = e.variants.length ∧
    (iterVariants e).map (fun x => x.tag) = e.variants.map (fun v => v.name) ∧
    ((iterVariants e).map (fun x => x.tag)).Nodup ∧
    ∀ x ∈ iterVariants e, x.captured = none := by
  have hmap : (iterVariants e).map (fun x => x.tag) = e.variants.map (fun v => v.name) := by
    simp [iterVariants]
  refine ⟨by simp [iterVariants], hmap, ?_, ?_⟩
  · rw [hmap]
    exact hnames
  · intro x hx
    unfold iterVariants at hx
    rcases List.mem_map.mp hx with ⟨v, hv, rfl⟩
    rfl

/-- Witness for C7 on the Color example of the documentation: four variants,
four items, tags in declaration order, all payloads neutral. -/
theorem iteration_declaration_order_witness :
    (iterVariants colorEnum).length = colorEnum.variants.length ∧
    (iterVariants colorEnum).map (fun x => x.tag) =
      colorEnum.variants.map (fun v => v.name) ∧
    ((iterVariants colorEnum).map (fun x => x.tag)).Nodup ∧
    ∀ x ∈ iterVariants colorEnum, x.captured = none :=
  iteration_declaration_order colorEnum (by decide)

/-- Claim C8: get_detailed_message returns the authored detailed message when
present and otherwise falls back to the value of get_message; when neither
message was authored, both lookups return none. -/
theorem message_fallback (v : VariantDescriptor) :
    (∀ d, v.detailedMessage = some d → get_detailed_message v = some d) ∧
    (v.detailedMessage = none → get_detailed_message v = get_message v) ∧
    (v.message = none → v.detailedMessage = none →
      get_message v = none ∧ get_detailed_message v = none) := by
  refine ⟨?_, ?_, ?_⟩
  · intro d hd
    unfold get_detailed_message
    rw [hd]
  · intro hd
    unfold get_detailed_message get_message
    rw [hd]
  · intro hm hd
    constructor
    · exact hm
    · unfold get_detailed_message
      rw [hd]
      exact hm

/-- Witness for C8 on the Pet example of the documentation and an
annotation-free variant: Dog has an explicit detailed message, Cat falls back
to its message, and Red has neither. -/
theorem message_fallback_witness :
    get_detailed_message petDog = some "My dog is called Spots" ∧
    get_detailed_message petCat = get_message petCat ∧
    (get_message colorRed = none ∧ get_detailed_message colorRed = none) := by
  refine ⟨?_, ?_, ?_⟩
  · exact (message_fallback petDog).1 "My dog is called Spots" rfl
  · exact (message_fallback petCat).2.1 rfl
  · exact (message_fallback colorRed).2.2 rfl rfl

/-- Claim C9: the borrowed serialization accessor of the AsRefStr form and
the owned to_string form agree extensionally: on every variant both return
the canonical string. -/
theorem serialize_forms_agree (v : VariantDescriptor) :
    as_ref_str v = canonicalString v := by
  unfold as_ref_str canonicalString
  cases hts : v.toStringAttr with
  | some s => rfl
  | none =>
    cases hl : serializations v with
    | nil => rfl
    | cons s rest =>
      show rest.foldl (fun acc t => if acc.length < t.length then t else acc) s =
        (match longest (s :: rest) with
         | some u => u
         | none => v.name)
      rw [foldl_longest, longest_cons]
      cases hrest : longest rest with
      | none => rfl
      | some t =>
        show (if s.length < t.length then t else s) =
          (match (if s.length < t.length then some t else some s) with
           | some u => u
           | none => v.name)
        by_cases hst : s.length < t.length
        · rw [if_pos hst, if_pos hst]
        · rw [if_neg hst, if_neg hst]

/-- Claim C10: the trait-level default implementations of get_int and
get_bool of EnumProperty return none for every receiver variant and every
key, independent of get_str: even when the key is declared and its stored
string parses successfully as an integer, the defaults still return none. -/
theorem default_typed_accessors_none (v : VariantDescriptor) (key : String) :
    defaultGetInt v key = none ∧ defaultGetBool v key = none ∧
    (∀ sv n, get_str v key = some sv → parseNatStr sv = some n →
      defaultGetInt v key = none ∧ defaultGetBool v key = none) :=
  ⟨rfl, rfl, fun sv n hs hn => ⟨rfl, rfl⟩⟩

/-- Witness for C10 on the White color variant: the stored Red property
string 255 parses as 255, yet the trait-level defaults return none. -/
theorem default_typed_accessors_none_witness :
    defaultGetInt colorWhite "Red" = none ∧
    defaultGetBool colorWhite "Red" = none ∧
    (defaultGetInt colorWhite "Red" = none ∧ defaultGetBool colorWhite "Red" = none) := by
  have h := default_typed_accessors_none colorWhite "Red"
  exact ⟨h.1, h.2.1, h.2.2 "255" 255 (by decide) (by decide)⟩

end Strum
